import Mathlib

/-!
Verification of `silence_cutter.py`: the timeline builder
(`getSectionsOfNewVideo`), the filter-expression compiler
(`ffmpeg_filter_getSegmentFilter`), the transcode invocation
(`ffmpeg_run`) and the CLI validation in `main`.

Modelling conventions:
* Python strings are `List Char`.
* Python floats are `ℚ` (every IEEE double is a dyadic rational, and all
  timestamps appearing in the scenarios are exact decimals).
* Python list indexing, which can raise `IndexError`, is an
  `Option`-valued lookup; functions that can propagate an exception
  return `Option` / `Except String` (the string is the exception name).
* The filesystem visible to `ffmpeg_run` is the list of existing
  temp-file names; the random names drawn from `os.urandom` and the
  outcome of `subprocess.run` are parameters (oracles).
-/

/-- Decimal digits of a natural number, most significant first. -/
def natDigits (n : Nat) : List Char := Nat.toDigits 10 n

/-- Model of Python `str(x)` for a float `x`, on dyadic rationals.
Python prints the shortest decimal that round-trips; for a value that is
an exact decimal this is the minimal decimal form, with `.0` appended to
integral values.  The search finds the least `k` with `x * 10^k`
integral; every IEEE double has denominator dividing `2^1074`, hence
some `k ≤ 1074` works and the last branch is unreachable for
float-representable inputs. -/
def renderFloat (q : ℚ) : List Char :=
  let sign : List Char := if q < 0 then ['-'] else []
  let a : ℚ := |q|
  match (List.range 1075).find? (fun k => (a * 10 ^ k).den == 1) with
  | some k =>
      let N : Nat := (a * 10 ^ k).num.toNat
      if k = 0 then
        sign ++ natDigits N ++ ['.', '0']
      else
        let fr := natDigits (N % 10 ^ k)
        sign ++ natDigits (N / 10 ^ k) ++ ['.'] ++
          List.replicate (k - fr.length) '0' ++ fr
  | none => sign ++ natDigits a.num.toNat ++ ['/'] ++ natDigits a.den

/-- Python list indexing `l[i]`: a negative index counts from the end,
and an out-of-range index raises `IndexError` (modelled as `none`). -/
def pyIndex (l : List ℚ) (i : Int) : Option ℚ :=
  let j : Int := if i < 0 then (l.length : Int) + i else i
  if 0 ≤ j then l[j.toNat]? else none

/-- `getSectionsOfNewVideo(silences, duration)` (source lines 43–45):
`return [0.0] + silences + [duration]`. -/
def getSectionsOfNewVideo (silences : List ℚ) (duration : ℚ) : List ℚ :=
  [0.0] ++ silences ++ [duration]

/-- One `"between(t," + str(start) + "," + str(end) + ")"` term
(source line 52). -/
def betweenTerm (p : ℚ × ℚ) : List Char :=
  "between(t,".toList ++ renderFloat p.1 ++ [','] ++ renderFloat p.2 ++ [')']

/-- The body of the loop of `ffmpeg_filter_getSegmentFilter`
(source lines 50–52): index the list (possibly raising `IndexError`),
clamp with the margin, and append the rendered term and the trailing
`+` to the accumulator. -/
def segStep (videoSectionTimings : List ℚ) (margin : ℚ) (ret : List Char)
    (i : Nat) : Option (List Char) :=
  (pyIndex videoSectionTimings (2 * i)).bind fun s2i =>
  (pyIndex videoSectionTimings 0).bind fun s0 =>
  (pyIndex videoSectionTimings (2 * i + 1)).bind fun s2i1 =>
  (pyIndex videoSectionTimings (-1)).bind fun slast =>
  some (ret ++ (betweenTerm (max (s2i - margin) s0, min (s2i1 + margin) slast)
    ++ ['+']))

/-- `ffmpeg_filter_getSegmentFilter(videoSectionTimings, margin)`
(source lines 47–55): loop `for i in range(int(len(v)/2))` accumulating
`"between(t,start,end)+"` terms, then cut away the last `"+"`
(`ret[:-1]`, which on the empty string returns the empty string). -/
def ffmpeg_filter_getSegmentFilter (videoSectionTimings : List ℚ)
    (margin : ℚ) : Option (List Char) :=
  ((List.range (videoSectionTimings.length / 2)).foldlM
      (segStep videoSectionTimings margin) []).map (fun ret => ret.dropLast)

/-- The clamped interval emitted for pair index `i`:
`start = max(segments[2i] - margin, segments[0])` and
`end = min(segments[2i+1] + margin, segments[-1])`
(total rephrasing of lines 50–51, used to state what the loop emits). -/
def clampedPair (vs : List ℚ) (m : ℚ) (i : Nat) : ℚ × ℚ :=
  (max (vs.getD (2 * i) 0 - m) (vs.getD 0 0),
   min (vs.getD (2 * i + 1) 0 + m) (vs.getLastD 0))

/-- All clamped pairs, one per iteration of the loop. -/
def clampedPairs (vs : List ℚ) (m : ℚ) : List (ℚ × ℚ) :=
  (List.range (vs.length / 2)).map (clampedPair vs m)

/-- Join a list of terms with the `+` (logical OR) separator, with no
trailing separator. -/
def orJoin : List (List Char) → List Char
  | [] => []
  | [t] => t
  | t :: u :: rest => t ++ '+' :: orJoin (u :: rest)

/-- Outcome of `subprocess.run(command)` for the encode invocation:
either the process completed (with some return code — the source never
inspects it), or the binary was missing and `FileNotFoundError` was
raised. -/
inductive RunOutcome where
  | completed (returncode : Int)
  | binaryNotFound
deriving DecidableEq

/-- `ffmpeg_run` (source lines 73–98).  The state threaded through is
the list of existing temp-file names; `videoFilter_file` and
`audioFilter_file` are the two random names drawn at lines 77–78.
Steps, in source order: `open(name, "x")` creates each file (raising
`FileExistsError` if it already exists), the filter contents are
written (no change to the name set), `subprocess.run(command)` runs
ffmpeg — its return value is discarded, and a missing binary raises
`FileNotFoundError` which propagates out of the function — and finally
`os.remove` deletes the two files.  The first component of the result
is normal return (`ok`) or the uncaught exception; the second is the
filesystem afterwards. -/
def ffmpeg_run (file videoFilter audioFilter outfile : String)
    (fps : Nat) (crf : Nat) (codec : String)
    (videoFilter_file audioFilter_file : String)
    (outcome : RunOutcome) (fs : List String) :
    Except String Unit × List String :=
  if videoFilter_file ∈ fs then (Except.error "FileExistsError", fs)
  else
    let fs1 := fs ++ [videoFilter_file]
    if audioFilter_file ∈ fs1 then (Except.error "FileExistsError", fs1)
    else
      let fs2 := fs1 ++ [audioFilter_file]
      match outcome with
      | RunOutcome.binaryNotFound => (Except.error "FileNotFoundError", fs2)
      | RunOutcome.completed _ =>
          (Except.ok (), (fs2.erase videoFilter_file).erase audioFilter_file)

/-- What `main` does after parsing arguments: return early with a
diagnostic for a missing input file, return early with a diagnostic for
an oversized margin, or go on to `cut_silences` (detection, probing and
encoding — the subprocess/temp-file work). -/
inductive MainResult where
  | errorInputNotFound
  | errorInvalidMargin
  | runsPipeline
deriving DecidableEq

namespace SilenceCutter

/-- The validation and dispatch logic of `main` (source lines 128–147):
`if not os.path.isfile(input_file): print(...); return`, then
`if margin > float(min_duration) / 2: print(...); return`, else run the
pipeline.  The existence of the input file is an oracle parameter;
`margin` and the parsed `min_duration` are rationals. -/
def main (inputFileExists : Bool) (margin min_duration : ℚ) : MainResult :=
  if !inputFileExists then MainResult.errorInputNotFound
  else if margin > min_duration / 2 then MainResult.errorInvalidMargin
  else MainResult.runsPipeline

end SilenceCutter

set_option maxRecDepth 20000

/-- A valid non-negative index evaluates to the corresponding element. -/
lemma pyIndex_nat (l : List ℚ) (n : Nat) (h : n < l.length) :
    pyIndex l (n : Int) = some (l.getD n 0) := by
  have h1 : ¬ ((n : Int) < 0) := by omega
  simp [pyIndex, h1, List.getD, List.getElem?_eq_getElem h]

/-- Index `-1` on a non-empty list evaluates to the last element. -/
lemma pyIndex_neg_one (l : List ℚ) (h : l ≠ []) :
    pyIndex l (-1) = some (l.getLastD 0) := by
  have hpos : 0 < l.length := List.length_pos.mpr h
  have h2 : (0 : Int) ≤ (l.length : Int) + (-1) := by omega
  have h3 : ((l.length : Int) + (-1)).toNat = l.length - 1 := by omega
  have h4 : l.length - 1 < l.length := by omega
  simp only [pyIndex, if_pos (by omega : (-1 : Int) < 0), if_pos h2, h3]
  rw [List.getElem?_eq_getElem h4, List.getLastD_eq_getLast?,
    List.getLast?_eq_getElem?, List.getElem?_eq_getElem h4]
  rfl

/-- When both indices of pair `i` are in range, the loop body appends
the rendered clamped term and a `+`. -/
lemma segStep_eq (vs : List ℚ) (m : ℚ) (ret : List Char) (i : Nat)
    (h : 2 * i + 1 < vs.length) :
    segStep vs m ret i =
      some (ret ++ (betweenTerm (clampedPair vs m i) ++ ['+'])) := by
  have h2i : 2 * i < vs.length := by omega
  have h0 : 0 < vs.length := by omega
  have hne : vs ≠ [] := List.ne_nil_of_length_pos h0
  have e1 : pyIndex vs (2 * (i : Int)) = some (vs.getD (2 * i) 0) := by
    have e := pyIndex_nat vs (2 * i) h2i
    rwa [show ((2 * i : Nat) : Int) = 2 * (i : Int) by push_cast; ring] at e
  have e2 : pyIndex vs (2 * (i : Int) + 1) = some (vs.getD (2 * i + 1) 0) := by
    have e := pyIndex_nat vs (2 * i + 1) h
    rwa [show ((2 * i + 1 : Nat) : Int) = 2 * (i : Int) + 1 by push_cast; ring] at e
  have e0 : pyIndex vs 0 = some (vs.getD 0 0) := by
    have e := pyIndex_nat vs 0 h0
    simpa using e
  have eL : pyIndex vs (-1) = some (vs.getLastD 0) := pyIndex_neg_one vs hne
  simp [segStep, e1, e2, e0, eL, clampedPair]

/-- The loop of the compiler, over any list of in-range pair indices. -/
lemma foldlM_segStep (vs : List ℚ) (m : ℚ) (idxs : List Nat) :
    ∀ (acc : List Char), (∀ i ∈ idxs, 2 * i + 1 < vs.length) →
      idxs.foldlM (segStep vs m) acc =
        some (acc ++
          (idxs.map (fun i => betweenTerm (clampedPair vs m i) ++ ['+'])).flatten) := by
  induction idxs with
  | nil => intro acc _; simp
  | cons j t ih =>
      intro acc h
      have hj : 2 * j + 1 < vs.length := h j (List.mem_cons_self j t)
      rw [List.foldlM_cons, segStep_eq vs m acc j hj]
      show (t.foldlM (segStep vs m) _) = _
      rw [ih _ (fun i hi => h i (List.mem_cons_of_mem _ hi))]
      simp [List.append_assoc]

/-- Concatenating the `term + "+"` chunks yields the `+`-join followed
by one trailing `+`. -/
lemma flattenPlus_eq (ts : List (List Char)) (h : ts ≠ []) :
    (ts.map (fun t => t ++ ['+'])).flatten = orJoin ts ++ ['+'] := by
  induction ts with
  | nil => cases h rfl
  | cons t rest ih =>
      cases rest with
      | nil => simp [orJoin]
      | cons u rest2 =>
          rw [List.map_cons, List.flatten_cons, ih (by simp)]
          simp [orJoin, List.append_assoc]

/-- Characterization of `ffmpeg_filter_getSegmentFilter`: it always
succeeds and returns the `+`-join of the rendered clamped pairs. -/
lemma filter_eq_orJoin (vs : List ℚ) (m : ℚ) :
    ffmpeg_filter_getSegmentFilter vs m =
      some (orJoin ((clampedPairs vs m).map betweenTerm)) := by
  unfold ffmpeg_filter_getSegmentFilter
  rw [foldlM_segStep vs m (List.range (vs.length / 2)) []
      (fun i hi => by have := List.mem_range.mp hi; omega)]
  by_cases hn : vs.length / 2 = 0
  · simp [hn, clampedPairs, orJoin]
  · have hmm : (List.range (vs.length / 2)).map
          (fun i => betweenTerm (clampedPair vs m i) ++ ['+'])
        = ((List.range (vs.length / 2)).map
            (fun i => betweenTerm (clampedPair vs m i))).map
            (fun t => t ++ ['+']) := by
      simp [List.map_map, Function.comp_def]
    have hne : (List.range (vs.length / 2)).map
        (fun i => betweenTerm (clampedPair vs m i)) ≠ [] := by
      simp [hn]
    rw [hmm, flattenPlus_eq _ hne]
    simp [clampedPairs, List.map_map, Function.comp_def, List.dropLast_concat]

/-- Each emitted term ends with a closing parenthesis. -/
lemma betweenTerm_getLast (p : ℚ × ℚ) : (betweenTerm p).getLast? = some ')' := by
  unfold betweenTerm
  exact List.getLast?_concat _

/-- The `+`-join of terms all ending in `)` itself ends in `)`. -/
lemma orJoin_getLast (ts : List (List Char)) (h : ts ≠ [])
    (hall : ∀ t ∈ ts, t.getLast? = some ')') :
    (orJoin ts).getLast? = some ')' := by
  induction ts with
  | nil => cases h rfl
  | cons t rest ih =>
      cases rest with
      | nil => simpa [orJoin] using hall t (by simp)
      | cons u rest2 =>
          have hr := ih (by simp) (fun x hx => hall x (List.mem_cons_of_mem _ hx))
          have hne2 : orJoin (u :: rest2) ≠ [] := by
            intro hc; rw [hc] at hr; simp at hr
          show (t ++ '+' :: orJoin (u :: rest2)).getLast? = some ')'
          rw [List.getLast?_append_of_ne_nil _ (by simp),
            show ('+' :: orJoin (u :: rest2)) = ['+'] ++ orJoin (u :: rest2) from rfl,
            List.getLast?_append_of_ne_nil _ hne2]
          exact hr

/-- Claim C3: end-to-end pipeline on concrete inputs.  For silences
`[2.0, 3.0]` and duration `10.0` the keep segments are
`[0.0, 2.0, 3.0, 10.0]`; compiling them with margin `0.0` yields exactly
`between(t,0.0,2.0)+between(t,3.0,10.0)`, and compiling the same
segments with margin `0.5` yields exactly
`between(t,0.0,2.5)+between(t,2.5,10.0)`. -/
theorem C3_end_to_end_scenarios :
    getSectionsOfNewVideo [2.0, 3.0] 10.0 = [0.0, 2.0, 3.0, 10.0]
    ∧ ffmpeg_filter_getSegmentFilter [0.0, 2.0, 3.0, 10.0] 0.0 =
        some "between(t,0.0,2.0)+between(t,3.0,10.0)".toList
    ∧ ffmpeg_filter_getSegmentFilter [0.0, 2.0, 3.0, 10.0] 0.5 =
        some "between(t,0.0,2.5)+between(t,2.5,10.0)".toList := by
  refine ⟨?_, ?_, ?_⟩ <;> with_unfolding_all decide

/-- Claim C4: the timeline builder returns exactly
`[0.0] + silences + [duration]`, and on an empty silence list it
returns `[0.0, D]`. -/
theorem C4_timeline_builder_concat (s : List ℚ) (D : ℚ) (hD : 0 ≤ D) :
    getSectionsOfNewVideo s D = [0.0] ++ s ++ [D]
    ∧ getSectionsOfNewVideo [] D = [0.0, D] :=
  ⟨rfl, rfl⟩

/-- Witness for C4 at `s = [1, 2]`, `D = 5`. -/
theorem C4_timeline_builder_concat_witness :
    (0 : ℚ) ≤ 5
    ∧ (getSectionsOfNewVideo [1, 2] 5 = [0.0] ++ [1, 2] ++ [5]
       ∧ getSectionsOfNewVideo [] 5 = [0.0, 5]) :=
  ⟨by decide, C4_timeline_builder_concat [1, 2] 5 (by decide)⟩

/-- Claim C5: for an even-length silence list `s` and any duration `D`,
the timeline builder's result has length `len(s) + 2`, which is even. -/
theorem C5_timeline_builder_length (s : List ℚ) (D : ℚ)
    (h : Even s.length) :
    (getSectionsOfNewVideo s D).length = s.length + 2
    ∧ Even (getSectionsOfNewVideo s D).length := by
  obtain ⟨r, hr⟩ := h
  have hlen : (getSectionsOfNewVideo s D).length = s.length + 2 := by
    simp [getSectionsOfNewVideo]
  exact ⟨hlen, ⟨r + 1, by omega⟩⟩

/-- Witness for C5 at `s = [1, 2]`, `D = 5`. -/
theorem C5_timeline_builder_length_witness :
    Even ([(1 : ℚ), 2]).length
    ∧ ((getSectionsOfNewVideo [1, 2] 5).length = ([(1 : ℚ), 2]).length + 2
       ∧ Even (getSectionsOfNewVideo [1, 2] 5).length) :=
  ⟨by decide, C5_timeline_builder_length [1, 2] 5 (by decide)⟩

/-- Claim C9: the filter-expression compiler is deterministic — two
invocations on equal inputs produce identical expression strings (it is
a pure function of its arguments; no hidden state). -/
theorem C9_compiler_deterministic (vs₁ vs₂ : List ℚ) (m₁ m₂ : ℚ)
    (h₁ : vs₁ = vs₂) (h₂ : m₁ = m₂) :
    ffmpeg_filter_getSegmentFilter vs₁ m₁ =
      ffmpeg_filter_getSegmentFilter vs₂ m₂ := by
  rw [h₁, h₂]

/-- Witness for C9 at `vs = [0, 1]`, `m = 0`. -/
theorem C9_compiler_deterministic_witness :
    ([(0 : ℚ), 1] = [(0 : ℚ), 1] ∧ (0 : ℚ) = 0)
    ∧ ffmpeg_filter_getSegmentFilter [0, 1] 0 =
        ffmpeg_filter_getSegmentFilter [0, 1] 0 :=
  ⟨⟨rfl, rfl⟩, C9_compiler_deterministic [0, 1] [0, 1] 0 0 rfl rfl⟩

/-- Claim C1: for a segment list of even non-zero length and margin
`m ≥ 0`, the compiled predicate is the `+`-join of one `between` term
per pair index `i < len/2`, with
`start = max(segments[2i] - m, segments[0])` and
`end = min(segments[2i+1] + m, segments[-1])`; consequently every
emitted start is `≥ segments[0]` and every emitted end is
`≤ segments[-1]` (clamping is only against the global first and last
values). -/
theorem C1_margin_clamping (vs : List ℚ) (m : ℚ)
    (h1 : vs ≠ []) (h2 : Even vs.length) (h3 : 0 ≤ m) :
    ffmpeg_filter_getSegmentFilter vs m =
      some (orJoin ((clampedPairs vs m).map betweenTerm))
    ∧ (clampedPairs vs m).length = vs.length / 2
    ∧ (∀ i, i < vs.length / 2 →
        (clampedPairs vs m).getD i (0, 0) =
          (max (vs.getD (2 * i) 0 - m) (vs.getD 0 0),
           min (vs.getD (2 * i + 1) 0 + m) (vs.getLastD 0)))
    ∧ ∀ p ∈ clampedPairs vs m, vs.getD 0 0 ≤ p.1 ∧ p.2 ≤ vs.getLastD 0 := by
  refine ⟨filter_eq_orJoin vs m, by simp [clampedPairs], ?_, ?_⟩
  · intro i hi
    simp [clampedPairs, clampedPair, List.getD, hi]
  · intro p hp
    simp only [clampedPairs, List.mem_map, List.mem_range] at hp
    obtain ⟨i, hi, rfl⟩ := hp
    simp only [clampedPair]
    exact ⟨le_max_right _ _, min_le_right _ _⟩

/-- Witness for C1 at `vs = [0, 1]`, `m = 0`. -/
theorem C1_margin_clamping_witness :
    (([(0 : ℚ), 1] : List ℚ) ≠ [] ∧ Even ([(0 : ℚ), 1] : List ℚ).length
      ∧ (0 : ℚ) ≤ 0)
    ∧ (ffmpeg_filter_getSegmentFilter [0, 1] 0 =
        some (orJoin ((clampedPairs [0, 1] 0).map betweenTerm))
      ∧ (clampedPairs [0, 1] 0).length = ([(0 : ℚ), 1] : List ℚ).length / 2
      ∧ (∀ i, i < ([(0 : ℚ), 1] : List ℚ).length / 2 →
          (clampedPairs [0, 1] 0).getD i (0, 0) =
            (max (([(0 : ℚ), 1] : List ℚ).getD (2 * i) 0 - 0)
              (([(0 : ℚ), 1] : List ℚ).getD 0 0),
             min (([(0 : ℚ), 1] : List ℚ).getD (2 * i + 1) 0 + 0)
              (([(0 : ℚ), 1] : List ℚ).getLastD 0)))
      ∧ ∀ p ∈ clampedPairs [0, 1] 0,
          ([(0 : ℚ), 1] : List ℚ).getD 0 0 ≤ p.1
          ∧ p.2 ≤ ([(0 : ℚ), 1] : List ℚ).getLastD 0) :=
  ⟨⟨by decide, by decide, by decide⟩,
    C1_margin_clamping [0, 1] 0 (by decide) (by decide) (by decide)⟩

/-- Claim C2: for a segment list of even non-zero length and margin
`m ≥ 0`, the compiled predicate starts with `between(t,` and does not
end with a trailing `+`; and for the single pair `[0, D]` with margin
`0` the result is exactly `between(t,0.0,` followed by the rendering of
`D` and `)`. -/
theorem C2_predicate_shape (vs : List ℚ) (m : ℚ)
    (h1 : vs ≠ []) (h2 : Even vs.length) (h3 : 0 ≤ m) :
    (∃ s, ffmpeg_filter_getSegmentFilter vs m = some s
        ∧ (∃ r, s = "between(t,".toList ++ r)
        ∧ s.getLast? ≠ some '+')
    ∧ ∀ D : ℚ, ffmpeg_filter_getSegmentFilter [0, D] 0 =
        some ("between(t,0.0,".toList ++ (renderFloat D ++ [')'])) := by
  constructor
  · have hlenpos : 0 < vs.length := List.length_pos.mpr h1
    have hlen2 : 2 ≤ vs.length := by obtain ⟨r, hr⟩ := h2; omega
    have hcplen : (clampedPairs vs m).length = vs.length / 2 := by
      simp [clampedPairs]
    have hcpne : clampedPairs vs m ≠ [] := by
      intro hc
      rw [hc] at hcplen
      simp at hcplen
      omega
    obtain ⟨p, ps, hps⟩ := List.exists_cons_of_ne_nil hcpne
    refine ⟨orJoin ((clampedPairs vs m).map betweenTerm),
      filter_eq_orJoin vs m, ?_, ?_⟩
    · rw [hps, List.map_cons]
      cases hmap : ps.map betweenTerm with
      | nil =>
          refine ⟨renderFloat p.1 ++ ([','] ++ (renderFloat p.2 ++ [')'])), ?_⟩
          show betweenTerm p = _
          unfold betweenTerm
          simp [List.append_assoc]
      | cons q qs =>
          refine ⟨renderFloat p.1 ++ ([','] ++ (renderFloat p.2 ++ [')']))
            ++ '+' :: orJoin (q :: qs), ?_⟩
          show betweenTerm p ++ '+' :: orJoin (q :: qs) = _
          unfold betweenTerm
          simp [List.append_assoc]
    · have hball : ∀ t ∈ (clampedPairs vs m).map betweenTerm,
          t.getLast? = some ')' := by
        intro t ht
        obtain ⟨q, hq, rfl⟩ := List.mem_map.mp ht
        exact betweenTerm_getLast q
      have hmapne : (clampedPairs vs m).map betweenTerm ≠ [] := by
        rw [hps]; simp
      rw [orJoin_getLast _ hmapne hball]
      simp
  · intro D
    have hp : clampedPairs [0, D] 0 = [((0 : ℚ), D)] := by
      simp only [clampedPairs]
      rw [show ([0, D] : List ℚ).length / 2 = 1 from by simp,
        show List.range 1 = [0] from by decide, List.map_cons, List.map_nil]
      simp [clampedPair, List.getD, List.getLastD]
    have hb : betweenTerm ((0 : ℚ), D)
        = "between(t,0.0,".toList ++ (renderFloat D ++ [')']) := by
      show "between(t,".toList ++ renderFloat 0 ++ [','] ++ renderFloat D ++ [')']
          = "between(t,0.0,".toList ++ (renderFloat D ++ [')'])
      rw [show renderFloat (0 : ℚ) = ['0', '.', '0'] from by
        with_unfolding_all decide]
      rw [show (("between(t,".toList ++ ['0', '.', '0'] ++ [','] : List Char))
          = "between(t,0.0,".toList from by decide]
      simp [List.append_assoc]
    rw [filter_eq_orJoin, hp]
    show some (betweenTerm ((0 : ℚ), D)) = _
    rw [hb]

/-- Witness for C2 at `vs = [0, 1]`, `m = 0`. -/
theorem C2_predicate_shape_witness :
    (([(0 : ℚ), 1] : List ℚ) ≠ [] ∧ Even ([(0 : ℚ), 1] : List ℚ).length
      ∧ (0 : ℚ) ≤ 0)
    ∧ ((∃ s, ffmpeg_filter_getSegmentFilter [0, 1] 0 = some s
          ∧ (∃ r, s = "between(t,".toList ++ r)
          ∧ s.getLast? ≠ some '+')
      ∧ ∀ D : ℚ, ffmpeg_filter_getSegmentFilter [0, D] 0 =
          some ("between(t,0.0,".toList ++ (renderFloat D ++ [')']))) :=
  ⟨⟨by decide, by decide, by decide⟩,
    C2_predicate_shape [0, 1] 0 (by decide) (by decide) (by decide)⟩

/-- Counterexample to claim C10: the final unpaired boundary of an
odd-length segment list is not silently ignored — it is read as
`segments[-1]` and clamps the emitted ends.  On `[0, 5, 7]` with margin
`1` the emitted end is `6.0` (clamped against `7`), whereas dropping
the unpaired boundary gives `5.0`. -/
theorem C10_unpaired_boundary_counterexample :
    ffmpeg_filter_getSegmentFilter [0, 5, 7] 1 =
      some "between(t,0.0,6.0)".toList
    ∧ ffmpeg_filter_getSegmentFilter (([0, 5, 7] : List ℚ).dropLast) 1 =
        some "between(t,0.0,5.0)".toList
    ∧ ffmpeg_filter_getSegmentFilter [0, 5, 7] 1 ≠
        ffmpeg_filter_getSegmentFilter (([0, 5, 7] : List ℚ).dropLast) 1 := by
  refine ⟨?_, ?_, ?_⟩ <;> with_unfolding_all decide

/-- Claim C10 as amended: the compiler is total over all segment lists
(it never raises — every lookup it performs is in range), iterates
exactly `⌊len/2⌋` pairs so an unpaired final boundary never opens an
interval of its own (though it is still read as `segments[-1]` for
clamping), and returns the empty string on the empty list. -/
theorem C10_totality_amended (vs : List ℚ) (m : ℚ) :
    (ffmpeg_filter_getSegmentFilter vs m).isSome = true
    ∧ ffmpeg_filter_getSegmentFilter vs m =
        some (orJoin ((clampedPairs vs m).map betweenTerm))
    ∧ (clampedPairs vs m).length = vs.length / 2
    ∧ ffmpeg_filter_getSegmentFilter [] m = some [] := by
  refine ⟨?_, filter_eq_orJoin vs m, by simp [clampedPairs], ?_⟩
  · rw [filter_eq_orJoin]; rfl
  · rw [filter_eq_orJoin]; simp [clampedPairs, orJoin]

/-- Counterexample to claim C6: when the engine completes with a
non-zero exit status (here `1`), `ffmpeg_run` does not fail — the
return code of `subprocess.run` is discarded and the call returns
normally. -/
theorem C6_engine_error_counterexample :
    (1 : Int) ≠ 0
    ∧ (ffmpeg_run "in.mp4" "vf" "af" "out.mp4" 60 23 "libx264"
        "tmpv" "tmpa" (RunOutcome.completed 1) []).1 = Except.ok () :=
  ⟨by decide, rfl⟩

/-- Claim C6 as amended: a missing binary makes `ffmpeg_run` fail (the
`FileNotFoundError` raised by `subprocess.run` propagates to the
caller), but a non-zero engine exit status is ignored and the call
silently succeeds. -/
theorem C6_engine_error_amended (file vF aF outfile codec vfile afile : String)
    (fps crf : Nat) (r : Int) (fs : List String)
    (hv : vfile ∉ fs) (ha : afile ∉ fs) (hav : afile ≠ vfile) (hr : r ≠ 0) :
    (ffmpeg_run file vF aF outfile fps crf codec vfile afile
        RunOutcome.binaryNotFound fs).1 = Except.error "FileNotFoundError"
    ∧ (ffmpeg_run file vF aF outfile fps crf codec vfile afile
        (RunOutcome.completed r) fs).1 = Except.ok () := by
  have h2 : afile ∉ fs ++ [vfile] := by simp [ha, hav]
  constructor <;> simp [ffmpeg_run, hv, h2]

/-- Witness for C6 (amended) at concrete arguments. -/
theorem C6_engine_error_amended_witness :
    ("tmpv" ∉ ([] : List String) ∧ "tmpa" ∉ ([] : List String)
      ∧ "tmpa" ≠ "tmpv" ∧ (1 : Int) ≠ 0)
    ∧ ((ffmpeg_run "in.mp4" "vf" "af" "out.mp4" 60 23 "libx264"
          "tmpv" "tmpa" RunOutcome.binaryNotFound []).1 =
            Except.error "FileNotFoundError"
      ∧ (ffmpeg_run "in.mp4" "vf" "af" "out.mp4" 60 23 "libx264"
          "tmpv" "tmpa" (RunOutcome.completed 1) []).1 = Except.ok ()) :=
  ⟨⟨by decide, by decide, by decide, by decide⟩,
    C6_engine_error_amended "in.mp4" "vf" "af" "out.mp4" "libx264"
      "tmpv" "tmpa" 60 23 1 [] (by decide) (by decide) (by decide) (by decide)⟩

/-- Counterexample to claim C7: on the exit path where the engine
binary is missing, the uncaught `FileNotFoundError` skips the
`os.remove` calls and both temp files are leaked. -/
theorem C7_temp_leak_counterexample :
    (ffmpeg_run "in.mp4" "vf" "af" "out.mp4" 60 23 "libx264"
        "tmpv" "tmpa" RunOutcome.binaryNotFound []).1 =
      Except.error "FileNotFoundError"
    ∧ (ffmpeg_run "in.mp4" "vf" "af" "out.mp4" 60 23 "libx264"
        "tmpv" "tmpa" RunOutcome.binaryNotFound []).2 = ["tmpv", "tmpa"] :=
  ⟨rfl, rfl⟩

/-- Claim C7 as amended: when `subprocess.run` returns (whatever the
exit code), both temp files are removed and the filesystem is restored;
but when the invocation raises (missing binary), both created temp
files remain. -/
theorem C7_cleanup_amended (file vF aF outfile codec vfile afile : String)
    (fps crf : Nat) (r : Int) (fs : List String)
    (hv : vfile ∉ fs) (ha : afile ∉ fs) (hav : afile ≠ vfile) :
    (ffmpeg_run file vF aF outfile fps crf codec vfile afile
        (RunOutcome.completed r) fs).2 = fs
    ∧ (ffmpeg_run file vF aF outfile fps crf codec vfile afile
        RunOutcome.binaryNotFound fs).2 = fs ++ [vfile, afile] := by
  have h2 : afile ∉ fs ++ [vfile] := by simp [ha, hav]
  constructor
  · simp only [ffmpeg_run, if_neg hv, if_neg h2]
    rw [List.append_assoc, List.erase_append_right _ hv,
      List.singleton_append, List.erase_cons_head,
      List.erase_append_right _ ha, List.erase_cons_head, List.append_nil]
  · simp [ffmpeg_run, hv, h2, List.append_assoc]

/-- Witness for C7 (amended) at concrete arguments. -/
theorem C7_cleanup_amended_witness :
    ("tmpv" ∉ ([] : List String) ∧ "tmpa" ∉ ([] : List String)
      ∧ "tmpa" ≠ "tmpv")
    ∧ ((ffmpeg_run "in.mp4" "vf" "af" "out.mp4" 60 23 "libx264"
          "tmpv" "tmpa" (RunOutcome.completed 0) []).2 = []
      ∧ (ffmpeg_run "in.mp4" "vf" "af" "out.mp4" 60 23 "libx264"
          "tmpv" "tmpa" RunOutcome.binaryNotFound []).2 =
            [] ++ ["tmpv", "tmpa"]) :=
  ⟨⟨by decide, by decide, by decide⟩,
    C7_cleanup_amended "in.mp4" "vf" "af" "out.mp4" "libx264"
      "tmpv" "tmpa" 60 23 0 [] (by decide) (by decide) (by decide)⟩

/-- Claim C8: the CLI validation short-circuits — whenever the input
file does not exist or the margin exceeds half the minimum silence
duration, `main` returns an early diagnostic result and never reaches
the pipeline (no detection, no subprocess, no temp files); in
particular margin `0.06` with minimum duration `0.1` is rejected. -/
theorem C8_cli_validation (inputFileExists : Bool) (margin min_duration : ℚ)
    (h : inputFileExists = false ∨ margin > min_duration / 2) :
    (SilenceCutter.main inputFileExists margin min_duration =
        MainResult.errorInputNotFound
      ∨ SilenceCutter.main inputFileExists margin min_duration =
        MainResult.errorInvalidMargin)
    ∧ SilenceCutter.main inputFileExists margin min_duration ≠
        MainResult.runsPipeline
    ∧ SilenceCutter.main true (0.06 : ℚ) (0.1 : ℚ) =
        MainResult.errorInvalidMargin := by
  have hc : SilenceCutter.main true (0.06 : ℚ) (0.1 : ℚ) =
      MainResult.errorInvalidMargin := by
    with_unfolding_all decide
  cases inputFileExists with
  | false =>
      exact ⟨Or.inl (by simp [SilenceCutter.main]),
        by simp [SilenceCutter.main], hc⟩
  | true =>
      have hm : margin > min_duration / 2 := by
        rcases h with h | h
        · cases h
        · exact h
      refine ⟨Or.inr ?_, ?_, hc⟩
      · simp [SilenceCutter.main, hm]
      · simp [SilenceCutter.main, hm]

/-- Witness for C8 at `inputFileExists = true`, margin `0.06`, minimum
duration `0.1`. -/
theorem C8_cli_validation_witness :
    (true = false ∨ (0.06 : ℚ) > (0.1 : ℚ) / 2)
    ∧ ((SilenceCutter.main true (0.06 : ℚ) (0.1 : ℚ) =
          MainResult.errorInputNotFound
        ∨ SilenceCutter.main true (0.06 : ℚ) (0.1 : ℚ) =
          MainResult.errorInvalidMargin)
      ∧ SilenceCutter.main true (0.06 : ℚ) (0.1 : ℚ) ≠
          MainResult.runsPipeline
      ∧ SilenceCutter.main true (0.06 : ℚ) (0.1 : ℚ) =
          MainResult.errorInvalidMargin) :=
  ⟨Or.inr (by with_unfolding_all decide),
    C8_cli_validation true (0.06 : ℚ) (0.1 : ℚ)
      (Or.inr (by with_unfolding_all decide))⟩
